import Mathlib

/-!
Shallow embedding of the TCRM modules `TrackGenerator/trackSize.py` and
`StatInterface/KDEOrigin.py`, together with proofs of the specified
properties of the operations they define.
-/

namespace TCRM

/-- Error taxonomy for the `trackSize` operations, following the spec's
error kinds: `ShapeMismatch` (paired-array length mismatch, raised by the
`assert` statements) and `FitError` (declared by the spec for an
underdetermined regression). -/
inductive TSError where
  | shapeMismatch
  | fitError

/-- A Python numeric argument that is either a scalar or an array; `dp` and
`lat` in `rmax` accept both (trackSize.py lines 55-56). -/
inductive NumArg where
  | scalar (v : ℝ)
  | array (vs : List ℝ)

/-- Default coefficients of `rmax` (trackSize.py lines 21-24 and 50-53). -/
noncomputable def defaultCoeffs : List ℝ :=
  [4.4726049824584306, -0.04057322103602546, 0.00031318220949448573, 0.00014553984831170656]

/-- The condition under which `rmax` logs its degraded-input warning and
substitutes the default coefficients (trackSize.py line 47). -/
def rmaxWarns (coeffs : List ℝ) : Bool := coeffs.length < 4

/-- `rmax(dp, lat, eps, coeffs)` from trackSize.py lines 21-61.
Fewer than four coefficients are replaced by the full default vector
(lines 47-53); when both `dp` and `lat` are arrays their lengths are
asserted equal (lines 55-57, a `ShapeMismatch` in the spec's taxonomy);
the result is `exp(c0 + c1*dp + c2*dp^2 + c3*lat^2 + eps)` elementwise
with numpy broadcasting (lines 58-59). -/
noncomputable def rmax (dp lat : NumArg) (eps : ℝ) (coeffs : List ℝ := defaultCoeffs) :
    Except TSError NumArg :=
  let cs := if coeffs.length < 4 then defaultCoeffs else coeffs
  let f : ℝ → ℝ → ℝ := fun d l =>
    Real.exp (cs.getD 0 0 + cs.getD 1 0 * d + cs.getD 2 0 * d * d + cs.getD 3 0 * l * l + eps)
  match dp, lat with
  | .array ds, .array ls =>
    if ds.length = ls.length then .ok (.array (List.zipWith f ds ls))
    else .error .shapeMismatch
  | .array ds, .scalar l => .ok (.array (ds.map fun d => f d l))
  | .scalar d, .array ls => .ok (.array (ls.map fun l => f d l))
  | .scalar d, .scalar l => .ok (.scalar (f d l))

/-- One row of the OLS design matrix `[1, dp, dp^2, lat^2]` built by
`fitRmax` (trackSize.py lines 89-90: `column_stack` plus `add_constant`). -/
noncomputable def designRow (dp lat : List ℝ) (i : ℕ) : Fin 4 → ℝ :=
  ![(1 : ℝ), dp.getD i 0, dp.getD i 0 * dp.getD i 0, lat.getD i 0 * lat.getD i 0]

/-- The full OLS design matrix of `fitRmax`, one `designRow` per observation. -/
noncomputable def designMatrix (dp lat : List ℝ) (n : ℕ) : Matrix (Fin n) (Fin 4) ℝ :=
  Matrix.of fun i j => designRow dp lat i j

/-- The coefficient vector returned by `sm.OLS(y, X).fit().params`
(trackSize.py lines 92-94).  The external statsmodels solver is total (it
solves least squares through a pseudoinverse and raises no error for an
underdetermined system); it is embedded here in its normal-equations form
`(X^T X)^-1 X^T y`, with Mathlib's convention that a singular matrix has
inverse zero standing in for the pseudoinverse in the singular case (no
theorem below depends on the numeric value in that case). -/
noncomputable def olsParams (dp lat y : List ℝ) : Fin 4 → ℝ :=
  let X := designMatrix dp lat dp.length
  let yv : Fin dp.length → ℝ := fun i => y.getD i 0
  Matrix.mulVec ((X.transpose * X)⁻¹ * X.transpose) yv

/-- The OLS residuals `results.resid` (trackSize.py line 96): observed
log-values minus fitted values. -/
noncomputable def olsResiduals (dp lat y : List ℝ) : List ℝ :=
  let p := olsParams dp lat y
  (List.range dp.length).map fun i =>
    y.getD i 0 - ∑ j, designRow dp lat i j * p j

/-- Arithmetic mean of a list, `np.mean` (trackSize.py line 97). -/
noncomputable def listMean (l : List ℝ) : ℝ := l.sum / l.length

/-- Population standard deviation of a list, `np.std`; also the scale
parameter of `stats.norm.fit` on the same data (trackSize.py line 97). -/
noncomputable def listStd (l : List ℝ) : ℝ :=
  Real.sqrt ((l.map fun v => (v - listMean l) ^ 2).sum / l.length)

/-- `fitRmax(rmw, dp, lat)` from trackSize.py lines 63-100: asserts the
paired lengths (lines 86-87), regresses `log(rmw)` on `[1, dp, dp^2, lat^2]`
by OLS (lines 89-94), and appends the residual standard deviation
(lines 96-99). -/
noncomputable def fitRmax (rmw dp lat : List ℝ) : Except TSError (List ℝ) :=
  if dp.length = lat.length then
    if rmw.length = dp.length then
      let y := rmw.map Real.log
      let params := olsParams dp lat y
      let r := olsResiduals dp lat y
      .ok (List.ofFn params ++ [listStd r])
    else .error .shapeMismatch
  else .error .shapeMismatch

/-- Error taxonomy for the `KDEOrigin` operations, following the spec's
error kinds: `InvalidBandwidth` (bandwidth not positive, carrying the
offending value), `UnsupportedKernel` (unknown kernel-family name) and
`StateError` (CDF requested before a PDF was computed). -/
inductive KDEError where
  | invalidBandwidth (bw : ℝ)
  | unsupportedKernel
  | stateError

/-- The grid specification dictionary `gridLimit` (KDEOrigin.py
lines 147-148). -/
structure GridLimit where
  xMin : ℝ
  xMax : ℝ
  yMin : ℝ
  yMax : ℝ

/-- `numpy.arange(start, stop, step)` over the reals: the values
`start + i * step` for `i` ranging over `ceil((stop - start) / step)`
indices (empty when that quantity is not positive). -/
noncomputable def arange (start stop step : ℝ) : List ℝ :=
  (List.range (⌈(stop - start) / step⌉).toNat).map fun i : ℕ => start + (i : ℝ) * step

/-- The mutable state of a `KDEOrigin` instance: the grid coordinate
sequences, the kernel-family name, the grid step, the observation set,
the stored bandwidth, and the PDF grid once one has been computed
(`none` models the `self.pdf` attribute not existing yet). -/
structure KDEState where
  x : List ℝ
  y : List ℝ
  kdeType : String
  kdeStep : ℝ
  lonLat : List (ℝ × ℝ)
  bw : ℝ
  pdf : Option (List (List ℝ))

/-- `KDEOrigin.__init__` (KDEOrigin.py lines 134-165): builds the x
sequence ascending by `kdeStep` from `xMin` and the y sequence descending
by `kdeStep` from `yMax`, stores the observation set, and stores the
automatically computed bandwidth.  `bw0` stands for the value returned by
`KPDF.MPDFOptimumBandwidth(lonLat)`, an external native routine whose
source is not part of this fragment. -/
noncomputable def KDEOrigin.init (gridLimit : GridLimit) (kdeType : String) (kdeStep : ℝ)
    (lonLat : List (ℝ × ℝ)) (bw0 : ℝ) : KDEState where
  x := arange gridLimit.xMin gridLimit.xMax kdeStep
  y := arange gridLimit.yMax gridLimit.yMin (-kdeStep)
  kdeType := kdeType
  kdeStep := kdeStep
  lonLat := lonLat
  bw := bw0
  pdf := none

/-- Modelled from the spec: `KPDF.MPDF2DGrid2Array(self.x, self.y, 1)`
(KDEOrigin.py line 196) is not part of this fragment; per the spec it
builds the full set of grid evaluation points from the x/y coordinate
sequences -- the cartesian product, one point per grid cell, laid out
row-major with one row per y value. -/
def grid2dOf (s : KDEState) : List (ℝ × ℝ) :=
  s.y.flatMap fun yj => s.x.map fun xi => (xi, yj)

/-- Modelled from the spec: the Gaussian kernel-density routine
`KPDF.MPDFGaussian(lonLat, grid, bw)` (dispatched at KDEOrigin.py
line 183) is not part of this fragment; per the spec it evaluates, at
every grid point, the kernel-density sum over all observations -- here
with the Gaussian kernel and its usual normalising constant. -/
noncomputable def mpdfGaussian (lonLat grid : List (ℝ × ℝ)) (bw : ℝ) : List ℝ :=
  grid.map fun g =>
    (lonLat.map fun ob =>
      Real.exp (-(((g.1 - ob.1) ^ 2 + (g.2 - ob.2) ^ 2) / (2 * bw ^ 2)))).sum /
      (lonLat.length * (2 * Real.pi * bw ^ 2))

/-- `KDEOrigin._generatePDF(grid, bw)` (KDEOrigin.py lines 173-188):
rejects a non-positive bandwidth with the spec's `InvalidBandwidth` error
carrying the offending value, then dispatches on the kernel-family name
(`getattr(KPDF, "MPDF%s" % kdeType)`); the set of kernels available in
the external KPDF module is modelled from the spec as the Gaussian
family, any other name failing with `UnsupportedKernel`. -/
noncomputable def generatePDF (s : KDEState) (grid : List (ℝ × ℝ)) (bw : ℝ) :
    Except KDEError (List ℝ) :=
  if bw ≤ 0 then .error (.invalidBandwidth bw)
  else if s.kdeType = "Gaussian" then .ok (mpdfGaussian s.lonLat grid bw)
  else .error .unsupportedKernel

/-- The bandwidth-override step of `generateKDE` (KDEOrigin.py
lines 197-198): `if bw: self.bw = bw`, so `None` and the falsy value `0`
leave the stored bandwidth unchanged, while any nonzero value replaces
it. -/
noncomputable def applyBwArg (s : KDEState) (bw : Option ℝ) : KDEState :=
  match bw with
  | some b => if b = 0 then s else { s with bw := b }
  | none => s

/-- The normalisation step of `generateKDE` (KDEOrigin.py line 202):
`pdf = pdf / pdf.sum()`. -/
noncomputable def normalizePdf (raw : List ℝ) : List ℝ :=
  raw.map fun v => v / raw.sum

/-- The reshape-and-transpose step of `generateKDE` (KDEOrigin.py
lines 203-204): the flat array is reshaped row-major to
`(length / xsize, xsize)` and transposed, so entry `(i, j)` of the result
is flat entry `j * xsize + i`. -/
noncomputable def reshapeT (v : List ℝ) (xsize : ℕ) : List (List ℝ) :=
  (List.range xsize).map fun i =>
    (List.range (v.length / xsize)).map fun j => v.getD (j * xsize + i) 0

/-- `KDEOrigin.generateKDE(bw)` (KDEOrigin.py lines 190-239, `save=False`
path): builds the grid points, applies the truthy bandwidth override,
generates the raw PDF, normalises it to total one, reshapes and
transposes it, stores it, and returns `(x, y, pdf)`.  The returned state
records the mutations of `self`; note that the bandwidth override is
applied before `_generatePDF` runs, so it persists even when that call
fails. -/
noncomputable def generateKDE (s : KDEState) (bw : Option ℝ) :
    KDEState × Except KDEError (List ℝ × List ℝ × List (List ℝ)) :=
  let grid2d := grid2dOf s
  let s1 := applyBwArg s bw
  match generatePDF s1 grid2d s1.bw with
  | .error e => (s1, .error e)
  | .ok raw =>
    let pdf2 := reshapeT (normalizePdf raw) s.x.length
    ({ s1 with pdf := some pdf2 }, .ok (s.x, s.y, pdf2))

/-- Running sums of a list (one prefix sum per entry). -/
noncomputable def cumsum (l : List ℝ) : List ℝ :=
  (l.scanl (· + ·) 0).tail

/-- Modelled from the spec: `Utilities.stats.cdf2d(x, y, pdf)`
(KDEOrigin.py line 246) is not part of this fragment; per the spec it
computes the cumulative sum of the PDF grid in two dimensions (row-wise
then column-wise). -/
noncomputable def cdf2d (_x _y : List ℝ) (pdf : List (List ℝ)) : List (List ℝ) :=
  ((pdf.map cumsum).transpose.map cumsum).transpose

/-- `KDEOrigin.generateCdf` (KDEOrigin.py lines 241-252, `save=False`
path): reads `self.pdf`, which fails when no PDF-generation call has
completed (the spec's `StateError`), and otherwise returns the 2D
cumulative sum of the stored PDF. -/
noncomputable def generateCdf (s : KDEState) : Except KDEError (List (List ℝ)) :=
  match s.pdf with
  | none => .error .stateError
  | some pdf => .ok (cdf2d s.x s.y pdf)

/-- The fixed descending candidate list of contour steps
`lvls_options` (KDEOrigin.py line 220). -/
noncomputable def lvlsOptions : List ℝ := [1.0, 0.5, 0.25, 0.2, 0.1]

/-- `exponent = int(numpy.floor(numpy.log10(pdfMax)))` (KDEOrigin.py
line 222). -/
noncomputable def contourExponent (m : ℝ) : ℤ := ⌊Real.logb 10 m⌋

/-- `significand = pdfMax * 10**-exponent` (KDEOrigin.py line 223). -/
noncomputable def contourSignificand (m : ℝ) : ℝ :=
  m * (10 : ℝ) ^ (-contourExponent m)

/-- The contour-step selection (KDEOrigin.py line 224): the first entry
of the descending candidate list whose quotient `significand / step`
exceeds `min_lvls = 6`; `none` models the `IndexError` when no candidate
qualifies (shown below never to happen for a positive maximum). -/
noncomputable def lvlStep? (s : ℝ) : Option ℝ :=
  if 6 < s / 1.0 then some 1.0
  else if 6 < s / 0.5 then some 0.5
  else if 6 < s / 0.25 then some 0.25
  else if 6 < s / 0.2 then some 0.2
  else if 6 < s / 0.1 then some 0.1
  else none

/-- `lvls = numpy.arange(0, pdfMax, lvl_step*(10.0**exponent))`
(KDEOrigin.py line 225). -/
noncomputable def contourLevels (m stp : ℝ) : List ℝ :=
  arange 0 m (stp * (10 : ℝ) ^ contourExponent m)

/-- A concrete model state used by the witnesses: a 2x2 grid, one
observation, kernel family Gaussian, stored bandwidth 1, no PDF yet. -/
noncomputable def exState : KDEState where
  x := [0, 1]
  y := [1, 0]
  kdeType := "Gaussian"
  kdeStep := 1
  lonLat := [(0, 0)]
  bw := 1
  pdf := none

/-- Claim C5: for scalar inputs, and elementwise for equal-length array
inputs, `rmax` with a four-element coefficient vector returns
`exp(a + b*dp + c*dp^2 + d*lat^2 + eps)`; in the degenerate case
`rmax 0 0 0 [a,0,0,0]` it returns `exp a` exactly. -/
theorem C5_rmax_formula (a b c d dp lat eps : ℝ) (ds ls : List ℝ)
    (h : ds.length = ls.length) :
    rmax (.scalar dp) (.scalar lat) eps [a, b, c, d]
      = .ok (.scalar (Real.exp (a + b * dp + c * dp * dp + d * lat * lat + eps))) ∧
    rmax (.array ds) (.array ls) eps [a, b, c, d]
      = .ok (.array (List.zipWith
          (fun u v => Real.exp (a + b * u + c * u * u + d * v * v + eps)) ds ls)) ∧
    rmax (.scalar 0) (.scalar 0) 0 [a, 0, 0, 0] = .ok (.scalar (Real.exp a)) := by
  refine ⟨rfl, ?_, ?_⟩
  · simp [rmax, if_pos h]
  · show Except.ok (NumArg.scalar (Real.exp (a + 0 * 0 + 0 * 0 * 0 + 0 * 0 * 0 + 0))) = _
    norm_num

/-- Witness for C5 at concrete inputs. -/
theorem C5_witness :
    ([(10 : ℝ), 20].length = [(3 : ℝ), 4].length) ∧
    rmax (.scalar 2) (.scalar 3) 1 [(1 : ℝ), 2, 3, 4]
      = .ok (.scalar (Real.exp (1 + 2 * 2 + 3 * 2 * 2 + 4 * 3 * 3 + 1))) :=
  ⟨by simp, (C5_rmax_formula 1 2 3 4 2 3 1 [(10 : ℝ), 20] [(3 : ℝ), 4] (by simp)).1⟩

/-- Claim C6: a coefficient list with fewer than four entries does not make
`rmax` fail; the warning condition holds, the full default vector is
substituted (never a partial application), and scalar calls succeed. -/
theorem C6_rmax_default_substitution (dp lat : NumArg) (eps : ℝ) (coeffs : List ℝ)
    (h : coeffs.length < 4) :
    rmaxWarns coeffs = true ∧
    rmax dp lat eps coeffs = rmax dp lat eps defaultCoeffs ∧
    ∀ d l e2, (rmax (.scalar d) (.scalar l) e2 coeffs).isOk = true := by
  refine ⟨by simp [rmaxWarns, h], ?_, ?_⟩
  · unfold rmax
    rw [if_pos h, if_neg (by simp [defaultCoeffs])]
  · intro d l e2
    rfl

/-- Witness for C6 with a one-element coefficient list. -/
theorem C6_witness :
    ([(1 : ℝ)].length < 4) ∧
    (rmaxWarns [(1 : ℝ)] = true ∧
     rmax (.scalar 2) (.scalar 3) 0 [(1 : ℝ)] = rmax (.scalar 2) (.scalar 3) 0 defaultCoeffs ∧
     ∀ d l e2, (rmax (.scalar d) (.scalar l) e2 [(1 : ℝ)]).isOk = true) :=
  ⟨by simp, C6_rmax_default_substitution (.scalar 2) (.scalar 3) 0 [(1 : ℝ)] (by simp)⟩

/-- Claim C7: mismatched paired array lengths fail with a `ShapeMismatch`
error before any result is computed, both in `rmax` (both arguments arrays)
and in `fitRmax` (any of the three observation sequences). -/
theorem C7_shape_mismatch (ds ls rmw dpl latl : List ℝ) (eps : ℝ) (coeffs : List ℝ)
    (h1 : ds.length ≠ ls.length)
    (h2 : dpl.length ≠ latl.length ∨ rmw.length ≠ dpl.length) :
    rmax (.array ds) (.array ls) eps coeffs = .error .shapeMismatch ∧
    fitRmax rmw dpl latl = .error .shapeMismatch := by
  constructor
  · simp [rmax, if_neg h1]
  · rcases h2 with h2 | h2
    · simp [fitRmax, if_neg h2]
    · rcases Decidable.em (dpl.length = latl.length) with h3 | h3
      · rw [fitRmax, if_pos h3, if_neg h2]
      · rw [fitRmax, if_neg h3]

/-- Witness for C7 at concrete mismatched lengths. -/
theorem C7_witness :
    ([(0 : ℝ)].length ≠ ([] : List ℝ).length) ∧
    ([(0 : ℝ), 0].length ≠ [(0 : ℝ)].length ∨ [(0 : ℝ)].length ≠ [(0 : ℝ), 0].length) ∧
    (rmax (.array [(0 : ℝ)]) (.array []) 0 defaultCoeffs = .error .shapeMismatch ∧
     fitRmax [(0 : ℝ)] [(0 : ℝ), 0] [(0 : ℝ)] = .error .shapeMismatch) :=
  ⟨by simp, Or.inl (by simp),
   C7_shape_mismatch [(0 : ℝ)] [] [(0 : ℝ)] [(0 : ℝ), 0] [(0 : ℝ)] 0 defaultCoeffs
     (by simp) (Or.inl (by simp))⟩

/-- Counterexample to claim C2: three equal-length observations (fewer than
the four free parameters) do not make `fitRmax` fail; it returns a
coefficient list. -/
theorem C2_counterexample :
    (fitRmax [1, 1, 1] [1, 2, 3] [4, 5, 6]).isOk = true := by
  rfl

/-- Claim C2 as amended: `fitRmax` performs no observation-count check;
for any equal-length inputs (including fewer than four observations) it
returns a five-element parameter list and never fails. -/
theorem C2_amended (rmw dpl latl : List ℝ) (h1 : dpl.length = latl.length)
    (h2 : rmw.length = dpl.length) :
    ∃ ps, fitRmax rmw dpl latl = .ok ps ∧ ps.length = 5 := by
  refine ⟨_, by rw [fitRmax, if_pos h1, if_pos h2], ?_⟩
  simp

/-- Witness for the amended C2 with two observations. -/
theorem C2_witness :
    ([(1 : ℝ), 2].length = [(3 : ℝ), 4].length) ∧
    ([(1 : ℝ), 1].length = [(1 : ℝ), 2].length) ∧
    ∃ ps, fitRmax [(1 : ℝ), 1] [(1 : ℝ), 2] [(3 : ℝ), 4] = .ok ps ∧ ps.length = 5 :=
  ⟨by simp, by simp,
   C2_amended [(1 : ℝ), 1] [(1 : ℝ), 2] [(3 : ℝ), 4] (by simp) (by simp)⟩

/-- Helper: on a state whose stored bandwidth equals the override, the
record update in `applyBwArg` is the identity. -/
theorem applyBwArg_self (s : KDEState) (b : ℝ) (hb : s.bw = b) :
    applyBwArg s (some b) = s := by
  cases s
  cases hb
  simp only [applyBwArg]
  split <;> rfl

/-- Helper: a `none` bandwidth argument, and an argument equal to the
stored bandwidth, give the same `generateKDE` behaviour. -/
theorem generateKDE_none_eq_some (t : KDEState) (b : ℝ) (hb : t.bw = b) :
    generateKDE t none = generateKDE t (some b) := by
  have happ : applyBwArg t none = applyBwArg t (some b) := by
    rw [applyBwArg_self t b hb]
    rfl
  simp only [generateKDE, happ]

/-- Counterexample to claim C1: a bandwidth override of exactly `0` is
falsy in `if bw:`, so `generateKDE` ignores it and computes a PDF with
the stored bandwidth instead of failing. -/
theorem C1_counterexample :
    ((generateKDE exState (some 0)).2).isOk = true := by
  have h0 : applyBwArg exState (some 0) = exState := by
    simp [applyBwArg]
  have hbw : generatePDF exState (grid2dOf exState) exState.bw
      = .ok (mpdfGaussian exState.lonLat (grid2dOf exState) exState.bw) := by
    unfold generatePDF
    rw [if_neg (by norm_num [exState]), if_pos (by rfl)]
  simp only [generateKDE, h0, hbw]
  rfl

/-- Claim C1 as amended: a strictly negative bandwidth override makes
`generateKDE` fail with `InvalidBandwidth` carrying the offending value
and leaves the stored PDF untouched, and `_generatePDF` itself rejects
every bandwidth that is zero or negative; an override of exactly `0`,
however, is falsy and is silently ignored (see the counterexample). -/
theorem C1_amended (s : KDEState) (grid : List (ℝ × ℝ)) (b : ℝ) (hb : b < 0) :
    (generateKDE s (some b)).2 = .error (.invalidBandwidth b) ∧
    ((generateKDE s (some b)).1).pdf = s.pdf ∧
    ∀ b2 ≤ 0, generatePDF s grid b2 = .error (.invalidBandwidth b2) := by
  have hset : applyBwArg s (some b) = { s with bw := b } := by
    simp only [applyBwArg]
    rw [if_neg (ne_of_lt hb)]
  have herr : generatePDF { s with bw := b } (grid2dOf s) ({ s with bw := b } : KDEState).bw
      = .error (.invalidBandwidth b) := by
    unfold generatePDF
    rw [if_pos (le_of_lt hb)]
  refine ⟨?_, ?_, ?_⟩
  · simp only [generateKDE, hset, herr]
  · simp only [generateKDE, hset, herr]
  · intro b2 hb2
    unfold generatePDF
    rw [if_pos hb2]

/-- Witness for the amended C1 at override `-1`. -/
theorem C1_witness :
    ((-1 : ℝ) < 0) ∧
    ((generateKDE exState (some (-1))).2 = .error (.invalidBandwidth (-1)) ∧
     ((generateKDE exState (some (-1))).1).pdf = exState.pdf ∧
     ∀ b2 ≤ 0, generatePDF exState [] b2 = .error (.invalidBandwidth b2)) :=
  ⟨by norm_num, C1_amended exState [] (-1) (by norm_num)⟩

/-- Claim C4: `generateCdf` on a model whose PDF has not been computed
fails with `StateError` and produces no CDF; a freshly constructed model
is in that state. -/
theorem C4_cdf_requires_pdf (s : KDEState) (h : s.pdf = none) :
    generateCdf s = .error .stateError ∧
    ∀ gl kt st ll bw0, (KDEOrigin.init gl kt st ll bw0).pdf = none := by
  constructor
  · unfold generateCdf
    rw [h]
  · intro gl kt st ll bw0
    rfl

/-- Witness for C4 on the concrete fresh state. -/
theorem C4_witness :
    exState.pdf = none ∧ generateCdf exState = .error .stateError :=
  ⟨rfl, (C4_cdf_requires_pdf exState rfl).1⟩

/-- Claim C10: a truthy (nonzero) bandwidth override permanently replaces
the stored bandwidth -- the state returned by `generateKDE` carries the
override, and a subsequent call without an override behaves exactly like
one that passes the replacement value again. -/
theorem C10_bw_override_persists (s : KDEState) (b : ℝ) (hb : b ≠ 0) :
    ((generateKDE s (some b)).1).bw = b ∧
    generateKDE ((generateKDE s (some b)).1) none
      = generateKDE ((generateKDE s (some b)).1) (some b) := by
  have hset : applyBwArg s (some b) = { s with bw := b } := by
    simp only [applyBwArg]
    rw [if_neg hb]
  have hbw : ((generateKDE s (some b)).1).bw = b := by
    simp only [generateKDE, hset]
    split <;> rfl
  exact ⟨hbw, generateKDE_none_eq_some _ b hbw⟩

/-- Witness for C10 at override `5`. -/
theorem C10_witness :
    ((5 : ℝ) ≠ 0) ∧
    (((generateKDE exState (some 5)).1).bw = 5 ∧
     generateKDE ((generateKDE exState (some 5)).1) none
       = generateKDE ((generateKDE exState (some 5)).1) (some 5)) :=
  ⟨by norm_num, C10_bw_override_persists exState 5 (by norm_num)⟩

/-- Length of a real arange. -/
theorem arange_length (start stop step : ℝ) :
    (arange start stop step).length = (⌈(stop - start) / step⌉).toNat := by
  simp [arange]

/-- Members of an ascending arange lie in `[start, stop)`. -/
theorem arange_mem_asc (start stop step : ℝ) (hs : 0 < step) (a : ℝ)
    (ha : a ∈ arange start stop step) : start ≤ a ∧ a < stop := by
  unfold arange at ha
  obtain ⟨i, hi, rfl⟩ := List.mem_map.mp ha
  rw [List.mem_range] at hi
  have hic : ((i : ℤ) : ℝ) < (stop - start) / step := Int.lt_ceil.mp (Int.lt_toNat.mp hi)
  have hic2 : (i : ℝ) < (stop - start) / step := by exact_mod_cast hic
  have hmul := (lt_div_iff₀ hs).mp hic2
  have hnn := mul_nonneg (Nat.cast_nonneg (α := ℝ) i) hs.le
  constructor <;> linarith

/-- An ascending arange is strictly increasing. -/
theorem arange_pairwise_asc (start stop step : ℝ) (hs : 0 < step) :
    (arange start stop step).Pairwise (· < ·) := by
  unfold arange
  refine List.Pairwise.map _ (fun i j hij => ?_) (List.pairwise_lt_range _)
  have hij2 : (i : ℝ) < j := by exact_mod_cast hij
  have := mul_lt_mul_of_pos_right hij2 hs
  linarith

/-- A nonempty ascending arange starts at `start`. -/
theorem arange_head_asc (start stop step : ℝ) (hs : 0 < step) (h : start < stop) :
    (arange start stop step).head? = some start := by
  have hpos : 0 < (⌈(stop - start) / step⌉).toNat := by
    apply Int.lt_toNat.mpr
    exact_mod_cast Int.ceil_pos.mpr (div_pos (by linarith) hs)
  unfold arange
  obtain ⟨n, hn⟩ := Nat.exists_eq_succ_of_ne_zero (Nat.pos_iff_ne_zero.mp hpos)
  rw [hn, List.range_succ_eq_map]
  simp

/-- Members of a descending arange lie in `(stop, start]`. -/
theorem arange_mem_desc (start stop step : ℝ) (hs : step < 0) (a : ℝ)
    (ha : a ∈ arange start stop step) : stop < a ∧ a ≤ start := by
  unfold arange at ha
  obtain ⟨i, hi, rfl⟩ := List.mem_map.mp ha
  rw [List.mem_range] at hi
  have hic : ((i : ℤ) : ℝ) < (stop - start) / step := Int.lt_ceil.mp (Int.lt_toNat.mp hi)
  have hic2 : (i : ℝ) < (stop - start) / step := by exact_mod_cast hic
  have hmul := (lt_div_iff_of_neg hs).mp hic2
  have hnn : (i : ℝ) * step ≤ 0 :=
    mul_nonpos_iff.mpr (Or.inl ⟨Nat.cast_nonneg i, hs.le⟩)
  constructor <;> linarith

/-- A descending arange is strictly decreasing. -/
theorem arange_pairwise_desc (start stop step : ℝ) (hs : step < 0) :
    (arange start stop step).Pairwise (· > ·) := by
  unfold arange
  refine List.Pairwise.map _ (fun i j hij => ?_) (List.pairwise_lt_range _)
  have hij2 : (i : ℝ) < j := by exact_mod_cast hij
  have := mul_lt_mul_of_neg_right hij2 hs
  show start + (j : ℝ) * step < start + (i : ℝ) * step
  linarith

/-- A nonempty descending arange starts at `start`. -/
theorem arange_head_desc (start stop step : ℝ) (hs : step < 0) (h : stop < start) :
    (arange start stop step).head? = some start := by
  have hpos : 0 < (⌈(stop - start) / step⌉).toNat := by
    apply Int.lt_toNat.mpr
    exact_mod_cast Int.ceil_pos.mpr (div_pos_iff.mpr (Or.inr ⟨by linarith, hs⟩))
  unfold arange
  obtain ⟨n, hn⟩ := Nat.exists_eq_succ_of_ne_zero (Nat.pos_iff_ne_zero.mp hpos)
  rw [hn, List.range_succ_eq_map]
  simp

/-- Claim C8: for a grid specification with `xMin < xMax`, `yMin < yMax`
and a positive step, the constructed x sequence is strictly ascending
from `xMin` (staying below `xMax`) and the y sequence strictly descending
from `yMax` (staying above `yMin`), each with length
`ceil((max - min) / step)`. -/
theorem C8_grid_sequences (gl : GridLimit) (kt : String) (step : ℝ)
    (ll : List (ℝ × ℝ)) (bw0 : ℝ)
    (hx : gl.xMin < gl.xMax) (hy : gl.yMin < gl.yMax) (hs : 0 < step) :
    (KDEOrigin.init gl kt step ll bw0).x.Pairwise (· < ·) ∧
    (KDEOrigin.init gl kt step ll bw0).x.head? = some gl.xMin ∧
    (∀ a ∈ (KDEOrigin.init gl kt step ll bw0).x, gl.xMin ≤ a ∧ a < gl.xMax) ∧
    (KDEOrigin.init gl kt step ll bw0).x.length = (⌈(gl.xMax - gl.xMin) / step⌉).toNat ∧
    (KDEOrigin.init gl kt step ll bw0).y.Pairwise (· > ·) ∧
    (KDEOrigin.init gl kt step ll bw0).y.head? = some gl.yMax ∧
    (∀ a ∈ (KDEOrigin.init gl kt step ll bw0).y, gl.yMin < a ∧ a ≤ gl.yMax) ∧
    (KDEOrigin.init gl kt step ll bw0).y.length = (⌈(gl.yMax - gl.yMin) / step⌉).toNat := by
  have hxseq : (KDEOrigin.init gl kt step ll bw0).x = arange gl.xMin gl.xMax step := rfl
  have hyseq : (KDEOrigin.init gl kt step ll bw0).y = arange gl.yMax gl.yMin (-step) := rfl
  rw [hxseq, hyseq]
  have hneg : -step < 0 := by linarith
  refine ⟨arange_pairwise_asc _ _ _ hs, arange_head_asc _ _ _ hs hx,
    fun a ha => arange_mem_asc _ _ _ hs a ha, arange_length _ _ _,
    arange_pairwise_desc _ _ _ hneg, arange_head_desc _ _ _ hneg hy,
    fun a ha => arange_mem_desc _ _ _ hneg a ha, ?_⟩
  rw [arange_length]
  congr 2
  rw [div_neg, ← neg_div, neg_sub]

/-- Witness for C8 on the unit-step 2x2 grid specification. -/
theorem C8_witness :
    ((0 : ℝ) < 2 ∧ (0 : ℝ) < 2 ∧ (0 : ℝ) < 1) ∧
    (KDEOrigin.init ⟨0, 2, 0, 2⟩ "Gaussian" 1 [] 1).x.head? = some 0 ∧
    (KDEOrigin.init ⟨0, 2, 0, 2⟩ "Gaussian" 1 [] 1).y.head? = some 2 :=
  ⟨⟨by norm_num, by norm_num, by norm_num⟩,
   (C8_grid_sequences ⟨0, 2, 0, 2⟩ "Gaussian" 1 [] 1
     (by norm_num) (by norm_num) (by norm_num)).2.1,
   (C8_grid_sequences ⟨0, 2, 0, 2⟩ "Gaussian" 1 [] 1
     (by norm_num) (by norm_num) (by norm_num)).2.2.2.2.2.1⟩

/-- Sum of a mapped range as a `Finset` sum. -/
theorem sum_map_range (f : ℕ → ℝ) (n : ℕ) :
    ((List.range n).map f).sum = ∑ k ∈ Finset.range n, f k := by
  induction n with
  | zero => simp
  | succ m ih =>
    rw [List.range_succ, List.map_append, List.sum_append, Finset.sum_range_succ, ih]
    simp

/-- A list's sum as the sum of its `getD` values over its index range. -/
theorem sum_range_getD (l : List ℝ) :
    ∑ k ∈ Finset.range l.length, l.getD k 0 = l.sum := by
  induction l with
  | nil => simp
  | cons a t ih =>
    rw [List.length_cons, Finset.sum_range_succ']
    have h1 : ∀ k : ℕ, (a :: t).getD (k + 1) 0 = t.getD k 0 := fun k => rfl
    have h2 : (a :: t).getD 0 0 = a := rfl
    rw [Finset.sum_congr rfl fun k _ => h1 k, h2, ih, List.sum_cons, add_comm]

/-- Splitting a range sum at an intermediate point. -/
theorem sum_range_add_split (f : ℕ → ℝ) (a b : ℕ) :
    ∑ k ∈ Finset.range (a + b), f k
      = (∑ k ∈ Finset.range a, f k) + ∑ i ∈ Finset.range b, f (a + i) := by
  induction b with
  | zero => simp
  | succ c ih =>
    rw [← Nat.add_assoc, Finset.sum_range_succ, ih, Finset.sum_range_succ]
    ring

/-- A range sum over `R * m` indices as a double sum over blocks of `m`. -/
theorem sum_range_mul_split (f : ℕ → ℝ) (R m : ℕ) :
    ∑ k ∈ Finset.range (R * m), f k
      = ∑ j ∈ Finset.range R, ∑ i ∈ Finset.range m, f (j * m + i) := by
  induction R with
  | zero => simp
  | succ r ih =>
    rw [Nat.succ_mul, sum_range_add_split, ih, Finset.sum_range_succ]

/-- `getD` with default `0` preserves nonnegativity. -/
theorem getD_zero_nonneg (l : List ℝ) (h : ∀ v ∈ l, 0 ≤ v) (k : ℕ) :
    0 ≤ l.getD k 0 := by
  induction l generalizing k with
  | nil => simp [List.getD]
  | cons a t ih =>
    cases k with
    | zero => exact h a (List.mem_cons_self a t)
    | succ n => exact ih (fun v hv => h v (List.mem_cons_of_mem a hv)) n

/-- Every entry of the reshaped-transposed grid is nonnegative when the
flat values are. -/
theorem reshapeT_nonneg (v : List ℝ) (m : ℕ) (h : ∀ u ∈ v, 0 ≤ u) :
    ∀ row ∈ reshapeT v m, ∀ u ∈ row, 0 ≤ u := by
  intro row hrow u hu
  unfold reshapeT at hrow
  obtain ⟨i, _, rfl⟩ := List.mem_map.mp hrow
  obtain ⟨j, _, rfl⟩ := List.mem_map.mp hu
  exact getD_zero_nonneg v h _

/-- The reshaped-transposed grid has the same total sum as the flat
values, provided their count fills the grid exactly. -/
theorem reshapeT_sum (v : List ℝ) (m R : ℕ) (hm : 0 < m) (hL : v.length = R * m) :
    ((reshapeT v m).map List.sum).sum = v.sum := by
  unfold reshapeT
  rw [List.map_map, hL, Nat.mul_div_cancel R hm, sum_map_range]
  have hinner : ∀ i : ℕ,
      (List.sum ∘ fun i : ℕ => (List.range R).map fun j : ℕ => v.getD (j * m + i) 0) i
        = ∑ j ∈ Finset.range R, v.getD (j * m + i) 0 := by
    intro i
    exact sum_map_range _ _
  rw [Finset.sum_congr rfl fun i _ => hinner i, Finset.sum_comm,
    ← sum_range_mul_split (fun k => v.getD k 0) R m, ← hL, sum_range_getD]

/-- Sum of a list divided elementwise by a constant. -/
theorem sum_map_div (l : List ℝ) (c : ℝ) :
    (l.map fun v => v / c).sum = l.sum / c := by
  induction l with
  | nil => simp
  | cons a t ih => simp [ih, add_div]

/-- The normalisation step produces values of total one whenever the raw
total is nonzero. -/
theorem normalizePdf_sum (raw : List ℝ) (h : raw.sum ≠ 0) :
    (normalizePdf raw).sum = 1 := by
  unfold normalizePdf
  rw [sum_map_div, div_self h]

/-- The normalisation step preserves nonnegativity when the raw total is
nonnegative. -/
theorem normalizePdf_nonneg (raw : List ℝ) (h : ∀ v ∈ raw, 0 ≤ v)
    (hs : 0 ≤ raw.sum) : ∀ v ∈ normalizePdf raw, 0 ≤ v := by
  intro v hv
  unfold normalizePdf at hv
  obtain ⟨u, hu, rfl⟩ := List.mem_map.mp hv
  exact div_nonneg (h u hu) hs

/-- The normalisation step preserves length. -/
theorem normalizePdf_length (raw : List ℝ) :
    (normalizePdf raw).length = raw.length := by
  simp [normalizePdf]

/-- Sum of a constant-valued map over a list. -/
theorem sum_map_const_nat {α : Type} (l : List α) (c : ℕ) :
    (l.map fun _ => c).sum = l.length * c := by
  induction l with
  | nil => simp
  | cons a t ih => simp [ih, Nat.succ_mul, Nat.add_comm]

/-- The grid of evaluation points has one point per grid cell. -/
theorem grid2dOf_length (s : KDEState) :
    (grid2dOf s).length = s.y.length * s.x.length := by
  unfold grid2dOf
  rw [List.length_flatMap]
  have h1 : (List.length ∘ fun yj => s.x.map fun xi => (xi, yj))
      = fun _ : ℝ => s.x.length := by
    funext yj
    simp
  rw [h1, sum_map_const_nat]

/-- The modelled Gaussian kernel routine returns one value per grid
point. -/
theorem mpdfGaussian_length (ll grid : List (ℝ × ℝ)) (b : ℝ) :
    (mpdfGaussian ll grid b).length = grid.length := by
  simp [mpdfGaussian]

/-- Every value of the modelled Gaussian kernel routine is strictly
positive for a nonempty observation set and positive bandwidth. -/
theorem mpdfGaussian_pos (ll grid : List (ℝ × ℝ)) (b : ℝ) (hb : 0 < b)
    (hll : ll ≠ []) : ∀ v ∈ mpdfGaussian ll grid b, 0 < v := by
  intro v hv
  unfold mpdfGaussian at hv
  obtain ⟨g, _, rfl⟩ := List.mem_map.mp hv
  apply div_pos
  · apply List.sum_pos
    · intro u hu
      obtain ⟨ob, _, rfl⟩ := List.mem_map.mp hu
      exact Real.exp_pos _
    · intro hcon
      exact hll (List.map_eq_nil_iff.mp hcon)
  · exact mul_pos (by exact_mod_cast List.length_pos.mpr hll)
      (mul_pos (mul_pos two_pos Real.pi_pos) (pow_pos hb 2))

/-- Claim C3: with a nonempty observation set, a nonempty grid, the
Gaussian kernel family and a positive bandwidth override, `generateKDE`
returns a PDF grid whose entries are all nonnegative and whose total sum
is exactly one, because the raw kernel output is divided by its total. -/
theorem C3_pdf_normalized (s : KDEState) (b : ℝ) (hb : 0 < b)
    (hll : s.lonLat ≠ []) (hx : s.x ≠ []) (hy : s.y ≠ [])
    (hk : s.kdeType = "Gaussian") :
    ∃ g, (generateKDE s (some b)).2 = .ok (s.x, s.y, g) ∧
      (∀ row ∈ g, ∀ v ∈ row, 0 ≤ v) ∧ (g.map List.sum).sum = 1 := by
  have hset : applyBwArg s (some b) = { s with bw := b } := by
    simp only [applyBwArg]
    rw [if_neg (ne_of_gt hb)]
  have hok : generatePDF { s with bw := b } (grid2dOf s) ({ s with bw := b } : KDEState).bw
      = .ok (mpdfGaussian s.lonLat (grid2dOf s) b) := by
    unfold generatePDF
    rw [if_neg (show ¬(({ s with bw := b } : KDEState).bw ≤ 0) from not_le.mpr hb),
      if_pos (show ({ s with bw := b } : KDEState).kdeType = "Gaussian" from hk)]
  refine ⟨reshapeT (normalizePdf (mpdfGaussian s.lonLat (grid2dOf s) b)) s.x.length,
    ?_, ?_, ?_⟩
  · simp only [generateKDE, hset, hok]
  · exact reshapeT_nonneg _ _ (normalizePdf_nonneg _
      (fun v hv => (mpdfGaussian_pos _ _ _ hb hll v hv).le)
      (List.sum_nonneg fun v hv => (mpdfGaussian_pos _ _ _ hb hll v hv).le))
  · have hx0 : 0 < s.x.length := List.length_pos.mpr hx
    have hy0 : 0 < s.y.length := List.length_pos.mpr hy
    have hrawlen : (mpdfGaussian s.lonLat (grid2dOf s) b).length
        = s.y.length * s.x.length := by
      rw [mpdfGaussian_length, grid2dOf_length]
    have hrawne : mpdfGaussian s.lonLat (grid2dOf s) b ≠ [] := by
      intro hcon
      have hzero : (mpdfGaussian s.lonLat (grid2dOf s) b).length = 0 := by
        rw [hcon]
        rfl
      rw [hrawlen] at hzero
      exact absurd hzero (Nat.mul_pos hy0 hx0).ne'
    have hpos : 0 < (mpdfGaussian s.lonLat (grid2dOf s) b).sum :=
      List.sum_pos _ (mpdfGaussian_pos _ _ _ hb hll) hrawne
    rw [reshapeT_sum _ s.x.length s.y.length hx0
      (by rw [normalizePdf_length, hrawlen])]
    exact normalizePdf_sum _ (ne_of_gt hpos)

/-- Witness for C3 on the concrete state with one observation and a
2x2 grid. -/
theorem C3_witness :
    ((0 : ℝ) < 1 ∧ exState.lonLat ≠ [] ∧ exState.x ≠ [] ∧ exState.y ≠ [] ∧
      exState.kdeType = "Gaussian") ∧
    ∃ g, (generateKDE exState (some 1)).2 = .ok (exState.x, exState.y, g) ∧
      (∀ row ∈ g, ∀ v ∈ row, 0 ≤ v) ∧ (g.map List.sum).sum = 1 :=
  ⟨⟨by norm_num, List.cons_ne_nil _ _, List.cons_ne_nil _ _, List.cons_ne_nil _ _, rfl⟩,
   C3_pdf_normalized exState 1 (by norm_num) (List.cons_ne_nil _ _)
     (List.cons_ne_nil _ _) (List.cons_ne_nil _ _) rfl⟩

/-- The significand of a positive maximum lies in `[1, 10)`. -/
theorem contourSignificand_bounds (m : ℝ) (hm : 0 < m) :
    1 ≤ contourSignificand m ∧ contourSignificand m < 10 := by
  have h10 : (1 : ℝ) < 10 := by norm_num
  have hle : ((contourExponent m : ℤ) : ℝ) ≤ Real.logb 10 m := Int.floor_le _
  have hlt : Real.logb 10 m < (contourExponent m : ℝ) + 1 := Int.lt_floor_add_one _
  have hrw : (10 : ℝ) ^ Real.logb 10 m = m :=
    Real.rpow_logb (by norm_num) (by norm_num) hm
  have h1 : (10 : ℝ) ^ ((contourExponent m : ℤ) : ℝ) ≤ m := by
    calc (10 : ℝ) ^ ((contourExponent m : ℤ) : ℝ)
        ≤ (10 : ℝ) ^ Real.logb 10 m := (Real.rpow_le_rpow_left_iff h10).mpr hle
    _ = m := hrw
  have h2 : m < (10 : ℝ) ^ (((contourExponent m : ℤ) : ℝ) + 1) := by
    calc m = (10 : ℝ) ^ Real.logb 10 m := hrw.symm
    _ < (10 : ℝ) ^ (((contourExponent m : ℤ) : ℝ) + 1) :=
        (Real.rpow_lt_rpow_left_iff h10).mpr hlt
  rw [Real.rpow_intCast] at h1
  have h2b : m < (10 : ℝ) ^ (contourExponent m + 1) := by
    have hcast : (((contourExponent m : ℤ) : ℝ) + 1) = ((contourExponent m + 1 : ℤ) : ℝ) := by
      push_cast
      ring
    rw [hcast, Real.rpow_intCast] at h2
    exact h2
  have hzpos : (0 : ℝ) < (10 : ℝ) ^ contourExponent m := zpow_pos (by norm_num) _
  unfold contourSignificand
  rw [zpow_neg, ← div_eq_mul_inv]
  constructor
  · rw [one_le_div hzpos]
    exact h1
  · rw [div_lt_iff₀ hzpos]
    calc m < (10 : ℝ) ^ (contourExponent m + 1) := h2b
    _ = 10 * (10 : ℝ) ^ contourExponent m := by
        rw [zpow_add_one₀ (by norm_num : (10 : ℝ) ≠ 0)]
        ring

/-- Dividing the significand by a step is dividing the maximum by the
scaled step. -/
theorem contourSignificand_div (m stp : ℝ) :
    contourSignificand m / stp = m / (stp * (10 : ℝ) ^ contourExponent m) := by
  unfold contourSignificand
  rw [zpow_neg, ← div_eq_mul_inv, div_div, mul_comm]

/-- Whenever the chosen step makes the significand quotient exceed 6, the
level list built by `arange` has at least 6 entries. -/
theorem contourLevels_count (m stp : ℝ) (h6 : 6 < contourSignificand m / stp) :
    6 ≤ (contourLevels m stp).length := by
  unfold contourLevels
  rw [arange_length, sub_zero]
  have h6b : (6 : ℝ) < m / (stp * (10 : ℝ) ^ contourExponent m) := by
    rw [← contourSignificand_div]
    exact h6
  have hceil : ((6 : ℕ) : ℤ) < ⌈m / (stp * (10 : ℝ) ^ contourExponent m)⌉ :=
    Int.lt_ceil.mpr (by exact_mod_cast h6b)
  exact (Int.lt_toNat.mpr hceil).le

/-- The step-selection chain always chooses the largest candidate whose
significand quotient exceeds 6, for a significand in `[1, 10)`. -/
theorem lvlStep_spec (sg : ℝ) (h1 : 1 ≤ sg) :
    ∃ stp, lvlStep? sg = some stp ∧ stp ∈ lvlsOptions ∧ 6 < sg / stp ∧
      ∀ o ∈ lvlsOptions, 6 < sg / o → o ≤ stp := by
  have e2 : (6 < sg / 0.5) ↔ 3 < sg := by
    rw [lt_div_iff₀ (by norm_num)]
    norm_num
  have e3 : (6 < sg / 0.25) ↔ 1.5 < sg := by
    rw [lt_div_iff₀ (by norm_num)]
    norm_num
  have e4 : (6 < sg / 0.2) ↔ 1.2 < sg := by
    rw [lt_div_iff₀ (by norm_num)]
    norm_num
  have e5 : (6 < sg / 0.1) ↔ 0.6 < sg := by
    rw [lt_div_iff₀ (by norm_num)]
    norm_num
  unfold lvlStep?
  by_cases c1 : (6 : ℝ) < sg / 1.0
  · rw [if_pos c1]
    refine ⟨1.0, rfl, by norm_num [lvlsOptions], c1, ?_⟩
    intro o ho _
    simp only [lvlsOptions, List.mem_cons, List.mem_singleton] at ho
    rcases ho with rfl | rfl | rfl | rfl | rfl | hcon
    · norm_num
    · norm_num
    · norm_num
    · norm_num
    · norm_num
    · exact absurd hcon (List.not_mem_nil o)
  · rw [if_neg c1]
    by_cases c2 : (6 : ℝ) < sg / 0.5
    · rw [if_pos c2]
      refine ⟨0.5, rfl, by norm_num [lvlsOptions], c2, ?_⟩
      intro o ho h6o
      simp only [lvlsOptions, List.mem_cons, List.mem_singleton] at ho
      rcases ho with rfl | rfl | rfl | rfl | rfl | hcon
      · exact absurd h6o c1
      · norm_num
      · norm_num
      · norm_num
      · norm_num
      · exact absurd hcon (List.not_mem_nil o)
    · rw [if_neg c2]
      by_cases c3 : (6 : ℝ) < sg / 0.25
      · rw [if_pos c3]
        refine ⟨0.25, rfl, by norm_num [lvlsOptions], c3, ?_⟩
        intro o ho h6o
        simp only [lvlsOptions, List.mem_cons, List.mem_singleton] at ho
        rcases ho with rfl | rfl | rfl | rfl | rfl | hcon
        · exact absurd h6o c1
        · exact absurd h6o c2
        · norm_num
        · norm_num
        · norm_num
        · exact absurd hcon (List.not_mem_nil o)
      · rw [if_neg c3]
        by_cases c4 : (6 : ℝ) < sg / 0.2
        · rw [if_pos c4]
          refine ⟨0.2, rfl, by norm_num [lvlsOptions], c4, ?_⟩
          intro o ho h6o
          simp only [lvlsOptions, List.mem_cons, List.mem_singleton] at ho
          rcases ho with rfl | rfl | rfl | rfl | rfl | hcon
          · exact absurd h6o c1
          · exact absurd h6o c2
          · exact absurd h6o c3
          · norm_num
          · norm_num
          · exact absurd hcon (List.not_mem_nil o)
        · rw [if_neg c4]
          have c5 : (6 : ℝ) < sg / 0.1 := e5.mpr (by linarith)
          rw [if_pos c5]
          refine ⟨0.1, rfl, by norm_num [lvlsOptions], c5, ?_⟩
          intro o ho h6o
          simp only [lvlsOptions, List.mem_cons, List.mem_singleton] at ho
          rcases ho with rfl | rfl | rfl | rfl | rfl | hcon
          · exact absurd h6o c1
          · exact absurd h6o c2
          · exact absurd h6o c3
          · exact absurd h6o c4
          · norm_num
          · exact absurd hcon (List.not_mem_nil o)

/-- The exponent chosen for maximum 37 is 1. -/
theorem contourExponent_37 : contourExponent (37 : ℝ) = 1 := by
  unfold contourExponent
  rw [Int.floor_eq_iff]
  constructor
  · show ((1 : ℤ) : ℝ) ≤ Real.logb 10 37
    rw [Int.cast_one, Real.le_logb_iff_rpow_le (by norm_num) (by norm_num), Real.rpow_one]
    norm_num
  · show Real.logb 10 37 < (1 : ℤ) + 1
    have : Real.logb 10 37 < 2 := by
      rw [Real.logb_lt_iff_lt_rpow (by norm_num) (by norm_num),
        show (2 : ℝ) = ((2 : ℕ) : ℝ) by norm_num, Real.rpow_natCast]
      norm_num
    push_cast
    linarith

/-- The significand for maximum 37 is 3.7. -/
theorem contourSignificand_37 : contourSignificand (37 : ℝ) = 37 / 10 := by
  unfold contourSignificand
  rw [contourExponent_37, zpow_neg, zpow_one, ← div_eq_mul_inv]

/-- Claim C9: for every positive maximum PDF value, the contour-step
selection finds a step -- the largest candidate in the descending list
whose significand quotient exceeds 6 -- and the resulting level list has
at least 6 entries; in particular, for maximum 37 the exponent is 1 and
the chosen step is 0.5. -/
theorem C9_contour_levels (m : ℝ) (hm : 0 < m) :
    ∃ stp, lvlStep? (contourSignificand m) = some stp ∧ stp ∈ lvlsOptions ∧
      6 < contourSignificand m / stp ∧
      (∀ o ∈ lvlsOptions, 6 < contourSignificand m / o → o ≤ stp) ∧
      6 ≤ (contourLevels m stp).length ∧
      (m = 37 → contourExponent m = 1 ∧ stp = 0.5) := by
  obtain ⟨hs1, _⟩ := contourSignificand_bounds m hm
  obtain ⟨stp, hfind, hmem, hdiv, hmax⟩ := lvlStep_spec _ hs1
  refine ⟨stp, hfind, hmem, hdiv, hmax, contourLevels_count m stp hdiv, ?_⟩
  intro hm37
  subst hm37
  refine ⟨contourExponent_37, ?_⟩
  rw [contourSignificand_37] at hfind
  have heval : lvlStep? ((37 : ℝ) / 10) = some 0.5 := by
    unfold lvlStep?
    rw [if_neg (by norm_num), if_pos (by norm_num)]
  rw [heval] at hfind
  exact (Option.some.inj hfind).symm

/-- Witness for C9 at maximum 37. -/
theorem C9_witness :
    ((0 : ℝ) < 37) ∧
    ∃ stp, lvlStep? (contourSignificand 37) = some stp ∧ stp ∈ lvlsOptions ∧
      6 < contourSignificand 37 / stp ∧
      (∀ o ∈ lvlsOptions, 6 < contourSignificand 37 / o → o ≤ stp) ∧
      6 ≤ (contourLevels 37 stp).length ∧
      ((37 : ℝ) = 37 → contourExponent 37 = 1 ∧ stp = 0.5) :=
  ⟨by norm_num, C9_contour_levels 37 (by norm_num)⟩

end TCRM
